import Mathlib

/-!
Verification of the Book Management System backend
(`src/backend/index.js`, an Express + Prisma application).

The persisted store is modelled as lists of rows; Prisma's `findUnique`
becomes `List.find?` on the key predicate, `deleteMany` becomes
`List.filter` with the negated predicate, and an update on a unique key
becomes a conditional `List.map`.  The numeric request fields are
modelled as `Option Int` (`none` plays the role of a field that is
`undefined` or fails `isNaN`); JavaScript truthiness of such a field is
`truthyI`.  Each handler returns the post-call database together with an
`Except` carrying the HTTP status and error message on failure.  The
Prisma `$transaction` callbacks of POST /borrow and POST /return are
modelled by `borrowBody` / `returnBody`, which also return the state
they reached so that "no write happens before a throw" is provable, and
any error they produce is caught by the handler and reported with
status 400, exactly as in the source's catch blocks.
-/

namespace BookMS

/-- A row of the `book` table (fields as used in src/backend/index.js).
    Prices only ever matter through their sign here, so they are carried
    as integers. -/
structure Book where
  id : Int
  title : String
  author : String
  price : Int
  stock : Int
  bookCategoryId : Int
deriving Repr, DecidableEq

/-- A row of the `bookCategory` table. -/
structure BookCategory where
  id : Int
  name : String
deriving Repr, DecidableEq

/-- A row of the `user` table. -/
structure User where
  id : Int
  name : String
  email : String
deriving Repr, DecidableEq

/-- A row of the `borrowRecord` table (audit history; `action` is
    "borrow" or "return"). -/
structure BorrowRecord where
  userId : Int
  bookId : Int
  action : String
  quantity : Int
deriving Repr, DecidableEq

/-- A row of the `currentBorrow` table (outstanding loans, unique per
    (userId, bookId) in the schema). -/
structure CurrentBorrow where
  userId : Int
  bookId : Int
  quantity : Int
deriving Repr, DecidableEq

/-- The whole persisted store. -/
structure DB where
  books : List Book
  categories : List BookCategory
  users : List User
  borrowRecords : List BorrowRecord
  currentBorrows : List CurrentBorrow
deriving Repr, DecidableEq

/-- An HTTP error response: status code and the `error` field of the
    JSON body. -/
structure ErrResp where
  status : Nat
  error : String
deriving Repr, DecidableEq

/-- `prisma.book.findUnique({ where: { id } })`. -/
def findBook (db : DB) (bid : Int) : Option Book :=
  db.books.find? (fun b => b.id == bid)

/-- `prisma.user.findUnique({ where: { id } })`. -/
def findUser (db : DB) (uid : Int) : Option User :=
  db.users.find? (fun u => u.id == uid)

/-- `prisma.bookCategory.findUnique({ where: { id } })`. -/
def findCategory (db : DB) (cid : Int) : Option BookCategory :=
  db.categories.find? (fun c => c.id == cid)

/-- `prisma.currentBorrow.findUnique({ where: { userId_bookId } })`. -/
def findCurrentBorrow (db : DB) (uid bid : Int) : Option CurrentBorrow :=
  db.currentBorrows.find? (fun cb => cb.userId == uid && cb.bookId == bid)

/-- JavaScript truthiness of an optional numeric field: `undefined`
    and `0` are falsy, every other number is truthy. -/
def truthyI : Option Int → Bool
  | none => false
  | some n => n != 0

/-- Whether an `Except` result is a success. -/
def exceptOk {ε α : Type} : Except ε α → Bool
  | .ok _ => true
  | .error _ => false

/-- Whether a handler result is an error whose message is `m`. -/
def hasErrMsg {α : Type} : Except ErrResp α → String → Bool
  | .error e, m => e.error == m
  | .ok _, _ => false

/-- The callback passed to `prisma.$transaction` in POST /borrow
    (src/backend/index.js lines 234-304).  The returned `DB` is the
    state reached when the callback ends, including the error cases, so
    that one can prove that no write precedes a throw. -/
def borrowBody (db : DB) (uid bid q : Int) : DB × Except String BorrowRecord :=
  match findBook db bid with
  | none => (db, .error "Book not found")
  | some book =>
    match findUser db uid with
    | none => (db, .error "User not found")
    | some _ =>
      if book.stock < q then (db, .error "Not enough stock available")
      else
        let existingBorrow := findCurrentBorrow db uid bid
        let rcd : BorrowRecord := ⟨uid, bid, "borrow", q⟩
        let db1 := { db with borrowRecords := db.borrowRecords ++ [rcd] }
        let db2 :=
          match existingBorrow with
          | some ex =>
            { db1 with currentBorrows := db1.currentBorrows.map (fun (cb : CurrentBorrow) =>
                if cb.userId == uid && cb.bookId == bid then
                  { cb with quantity := ex.quantity + q } else cb) }
          | none =>
            { db1 with currentBorrows := db1.currentBorrows ++ [(⟨uid, bid, q⟩ : CurrentBorrow)] }
        let db3 := { db2 with books := db2.books.map (fun (b : Book) =>
          if b.id == bid then { b with stock := book.stock - q } else b) }
        (db3, .ok rcd)

/-- POST /borrow (src/backend/index.js lines 222-318).  The request
    body's `quantity` defaults to 1 when absent; any error thrown inside
    the transaction is caught and answered with status 400. -/
def borrow (db : DB) (userId? bookId? quantity? : Option Int) :
    DB × Except ErrResp BorrowRecord :=
  if !(truthyI userId? && truthyI bookId?) then
    (db, .error ⟨400, "User ID and Book ID are required"⟩)
  else
    let q := quantity?.getD 1
    if q < 1 then (db, .error ⟨400, "Valid quantity is required"⟩)
    else
      match borrowBody db (userId?.getD 0) (bookId?.getD 0) q with
      | (_, .error msg) => (db, .error ⟨400, msg⟩)
      | (db1, .ok rcd) => (db1, .ok rcd)

/-- The callback passed to `prisma.$transaction` in POST /return
    (src/backend/index.js lines 333-410).  The interpolated over-return
    message is rebuilt by string concatenation.  The delete of the
    unique (userId, bookId) row is modelled by filtering that key out. -/
def returnBody (db : DB) (uid bid q : Int) : DB × Except String BorrowRecord :=
  match findBook db bid with
  | none => (db, .error "Book not found")
  | some book =>
    match findUser db uid with
    | none => (db, .error "User not found")
    | some _ =>
      match findCurrentBorrow db uid bid with
      | none => (db, .error "User has not borrowed this book")
      | some currentBorrow =>
        if currentBorrow.quantity < q then
          (db, .error ("User has only borrowed " ++ toString currentBorrow.quantity
            ++ " copies, cannot return " ++ toString q))
        else
          let rcd : BorrowRecord := ⟨uid, bid, "return", q⟩
          let db1 := { db with borrowRecords := db.borrowRecords ++ [rcd] }
          let db2 :=
            if currentBorrow.quantity == q then
              { db1 with currentBorrows := db1.currentBorrows.filter (fun (cb : CurrentBorrow) =>
                  !(cb.userId == uid && cb.bookId == bid)) }
            else
              { db1 with currentBorrows := db1.currentBorrows.map (fun (cb : CurrentBorrow) =>
                  if cb.userId == uid && cb.bookId == bid then
                    { cb with quantity := currentBorrow.quantity - q } else cb) }
          let db3 := { db2 with books := db2.books.map (fun (b : Book) =>
            if b.id == bid then { b with stock := book.stock + q } else b) }
          (db3, .ok rcd)

/-- POST /return (src/backend/index.js lines 321-424). -/
def returnBook (db : DB) (userId? bookId? quantity? : Option Int) :
    DB × Except ErrResp BorrowRecord :=
  if !(truthyI userId? && truthyI bookId?) then
    (db, .error ⟨400, "User ID and Book ID are required"⟩)
  else
    let q := quantity?.getD 1
    if q < 1 then (db, .error ⟨400, "Valid quantity is required"⟩)
    else
      match returnBody db (userId?.getD 0) (bookId?.getD 0) q with
      | (_, .error msg) => (db, .error ⟨400, msg⟩)
      | (db1, .ok rcd) => (db1, .ok rcd)

/-- DELETE /books/:id (src/backend/index.js lines 176-219).  The
    current-borrow check runs first; the transaction then deletes the
    history, any current borrows, and the book, and rolls back with a
    P2025 not-found error when the book row is absent. -/
def deleteBook (db : DB) (bid : Int) : DB × Except ErrResp String :=
  if ((db.currentBorrows.filter (fun (cb : CurrentBorrow) => cb.bookId == bid)).length > 0) then
    (db, .error ⟨400, "Cannot delete book that is currently borrowed by users"⟩)
  else
    match findBook db bid with
    | none => (db, .error ⟨404, "Book not found"⟩)
    | some _ =>
      ({ db with
          borrowRecords := db.borrowRecords.filter (fun r => !(r.bookId == bid)),
          currentBorrows := db.currentBorrows.filter (fun (cb : CurrentBorrow) => !(cb.bookId == bid)),
          books := db.books.filter (fun b => !(b.id == bid)) },
       .ok "Book deleted successfully")

/-- JavaScript's `String.prototype.trim()` (used by `validateBook` and
    the book handlers), written on the character list so that it
    evaluates by kernel reduction. -/
def jsTrim (s : String) : String :=
  ⟨((s.data.dropWhile Char.isWhitespace).reverse.dropWhile Char.isWhitespace).reverse⟩

/-- The request body of POST /books and PUT /books/:id.  A missing
    string field is modelled as `""` (both are falsy and fail the same
    check); a missing or non-numeric `price`/`stock`/`bookCategoryId`
    is `none` (`undefined` and values failing `isNaN` are rejected by
    the same condition). -/
structure BookReq where
  title : String
  author : String
  price : Option Int
  stock : Option Int
  bookCategoryId : Option Int
deriving Repr, DecidableEq

/-- The `validateBook` middleware (src/backend/index.js lines 21-45).
    Returns the error response it would send, or `none` when the
    request passes on to the handler. -/
def validateBook (r : BookReq) : Option ErrResp :=
  if jsTrim r.title == "" then some ⟨400, "Title is required"⟩
  else if jsTrim r.author == "" then some ⟨400, "Author is required"⟩
  else
    match r.price with
    | none => some ⟨400, "Valid price is required and must be non-negative"⟩
    | some p =>
      if p < 0 then some ⟨400, "Valid price is required and must be non-negative"⟩
      else
        match r.stock with
        | none => some ⟨400, "Valid stock is required and must be non-negative"⟩
        | some s =>
          if s < 0 then some ⟨400, "Valid stock is required and must be non-negative"⟩
          else
            if !(truthyI r.bookCategoryId) then some ⟨400, "Valid category is required"⟩
            else none

/-- POST /books (src/backend/index.js lines 98-127): validation, then
    the category-existence check, then the insert.  `newId` is the id
    the store assigns to the new row. -/
def createBook (db : DB) (r : BookReq) (newId : Int) : DB × Except ErrResp Book :=
  match validateBook r with
  | some e => (db, .error e)
  | none =>
    let cid := r.bookCategoryId.getD 0
    match findCategory db cid with
    | none => (db, .error ⟨400, "Invalid category"⟩)
    | some _ =>
      let book : Book :=
        ⟨newId, jsTrim r.title, jsTrim r.author, r.price.getD 0, r.stock.getD 0, cid⟩
      ({ db with books := db.books ++ [book] }, .ok book)

/-- PUT /books/:id (src/backend/index.js lines 130-173): validation,
    then the book-existence check, then the category-existence check,
    then the update on the unique id. -/
def updateBook (db : DB) (bid : Int) (r : BookReq) : DB × Except ErrResp Book :=
  match validateBook r with
  | some e => (db, .error e)
  | none =>
    match findBook db bid with
    | none => (db, .error ⟨404, "Book not found"⟩)
    | some b =>
      let cid := r.bookCategoryId.getD 0
      match findCategory db cid with
      | none => (db, .error ⟨400, "Invalid category"⟩)
      | some _ =>
        let upd : Book → Book := fun bk =>
          { bk with title := jsTrim r.title, author := jsTrim r.author,
                    price := r.price.getD 0, stock := r.stock.getD 0,
                    bookCategoryId := cid }
        ({ db with books := db.books.map (fun (bk : Book) =>
            if bk.id == bid then upd bk else bk) }, .ok (upd b))

/-- One call against the lending endpoints. -/
inductive Op where
  | borrowCall (userId? bookId? quantity? : Option Int)
  | returnCall (userId? bookId? quantity? : Option Int)
deriving Repr, DecidableEq

/-- The state observable after one call: a rejected call leaves the
    store as it was (the transaction rolled back or never started). -/
def applyOp (db : DB) : Op → DB
  | .borrowCall u b q => (borrow db u b q).1
  | .returnCall u b q => (returnBook db u b q).1

/-- The state after a sequence of calls. -/
def applyOps (db : DB) : List Op → DB
  | [] => db
  | op :: ops => applyOps (applyOp db op) ops

/-- The stock of the book `bid` as read back through `findBook`. -/
def bookStock (db : DB) (bid : Int) : Option Int :=
  (findBook db bid).map Book.stock

/-- The outstanding quantity for (uid, bid): the row's quantity, or 0
    when no row exists. -/
def cbQty (db : DB) (uid bid : Int) : Int :=
  ((findCurrentBorrow db uid bid).map CurrentBorrow.quantity).getD 0

/-- Total stock recorded for id `bid` (the one book, when ids are
    unique). -/
def stockOf (db : DB) (bid : Int) : Int :=
  ((db.books.filter (fun b => b.id == bid)).map Book.stock).sum

/-- Total quantity of all CurrentBorrow rows that reference `bid`. -/
def outstandingOf (db : DB) (bid : Int) : Int :=
  ((db.currentBorrows.filter (fun cb => cb.bookId == bid)).map CurrentBorrow.quantity).sum

/-- The conserved quantity of claim C9: copies on the shelf plus copies
    out on loan. -/
def conserved (db : DB) (bid : Int) : Int :=
  stockOf db bid + outstandingOf db bid

/-- An empty store, used to evaluate the handlers at concrete inputs. -/
def dbEmpty : DB := ⟨[], [], [], [], []⟩

/-- A one-book, one-user store (stock 5), used to evaluate the
    handlers at concrete inputs. -/
def dbOne : DB :=
  ⟨[⟨1, "The Great Gatsby", "F. Scott Fitzgerald", 10, 5, 1⟩],
   [⟨1, "Fiction"⟩],
   [⟨1, "John Doe", "john@example.com"⟩],
   [], []⟩

/-- The store dbOne after user 1 borrowed 3 copies of book 1. -/
def dbLoan : DB :=
  ⟨[⟨1, "The Great Gatsby", "F. Scott Fitzgerald", 10, 2, 1⟩],
   [⟨1, "Fiction"⟩],
   [⟨1, "John Doe", "john@example.com"⟩],
   [⟨1, 1, "borrow", 3⟩],
   [⟨1, 1, 3⟩]⟩

/-- Every book in the store has non-negative stock (claim C4's invariant). -/
def stocksNonneg (db : DB) : Bool := db.books.all (fun b => decide (0 ≤ b.stock))

/-- The acceptance condition of claim C8: title and author non-empty after
    trimming, price and stock present and non-negative, and the referenced
    category exists. -/
def acceptCond (db : DB) (r : BookReq) : Prop :=
  jsTrim r.title ≠ "" ∧ jsTrim r.author ≠ ""
  ∧ (∃ p, r.price = some p ∧ 0 ≤ p)
  ∧ (∃ s, r.stock = some s ∧ 0 ≤ s)
  ∧ (∃ cid, r.bookCategoryId = some cid ∧ (findCategory db cid).isSome = true)

/-! ## Helper lemmas on the list-backed store -/

/-- Searching for a key in a list from which that key was filtered out
    finds nothing. -/
theorem find?_filter_not {α : Type} (l : List α) (p : α → Bool) :
    (l.filter (fun a => !(p a))).find? p = none := by
  rw [List.find?_eq_none]
  intro x hx
  have := List.of_mem_filter hx
  simp at this
  simp [this]

/-- A conditional quantity update on CurrentBorrow rows commutes with
    the lookup of the updated key. -/
theorem find?_cb_set (l : List CurrentBorrow) (uid bid c : Int) :
    (l.map (fun (cb : CurrentBorrow) =>
        if cb.userId == uid && cb.bookId == bid then
          { cb with quantity := c } else cb)).find?
      (fun cb => cb.userId == uid && cb.bookId == bid)
    = (l.find? (fun cb => cb.userId == uid && cb.bookId == bid)).map
        (fun cb => { cb with quantity := c }) := by
  rw [List.find?_map]
  have hcomp : ((fun (cb : CurrentBorrow) => cb.userId == uid && cb.bookId == bid) ∘
      (fun (cb : CurrentBorrow) =>
        if cb.userId == uid && cb.bookId == bid then { cb with quantity := c } else cb))
      = (fun (cb : CurrentBorrow) => cb.userId == uid && cb.bookId == bid) := by
    funext cb
    simp only [Function.comp]
    by_cases h : (cb.userId == uid && cb.bookId == bid) = true
    · rw [if_pos h]
    · rw [if_neg h]
  rw [hcomp]
  cases hf : l.find? (fun cb => cb.userId == uid && cb.bookId == bid) with
  | none => rfl
  | some ex =>
    have hp := List.find?_some hf
    simp only [Option.map_some']
    rw [if_pos hp]

/-- A conditional stock update on Book rows commutes with the lookup of
    the updated id. -/
theorem find?_book_set (l : List Book) (bid c : Int) :
    (l.map (fun (b : Book) =>
        if b.id == bid then { b with stock := c } else b)).find? (fun b => b.id == bid)
    = (l.find? (fun b => b.id == bid)).map (fun b => { b with stock := c }) := by
  rw [List.find?_map]
  have hcomp : ((fun (b : Book) => b.id == bid) ∘
      (fun (b : Book) => if b.id == bid then { b with stock := c } else b))
      = (fun (b : Book) => b.id == bid) := by
    funext b
    simp only [Function.comp]
    by_cases h : (b.id == bid) = true
    · rw [if_pos h]
    · rw [if_neg h]
  rw [hcomp]
  cases hf : l.find? (fun b => b.id == bid) with
  | none => rfl
  | some ex =>
    have hp := List.find?_some hf
    simp only [Option.map_some']
    rw [if_pos hp]

/-- When the first match exists and at most one element matches, the
    filter is exactly that single match. -/
theorem filter_eq_single_of_find? {α : Type} (p : α → Bool) :
    ∀ (l : List α) (ex : α), l.find? p = some ex →
      (l.filter p).length ≤ 1 → l.filter p = [ex] := by
  intro l
  induction l with
  | nil => intro ex hfind _; simp at hfind
  | cons h t ih =>
    intro ex hfind huniq
    by_cases hp : p h = true
    · rw [List.find?_cons_of_pos _ hp] at hfind
      injection hfind with hfind
      subst hfind
      rw [List.filter_cons_of_pos hp] at huniq ⊢
      have : t.filter p = [] := by
        cases hft : t.filter p with
        | nil => rfl
        | cons a u => rw [hft] at huniq; simp at huniq
      rw [this]
    · rw [List.find?_cons_of_neg _ hp] at hfind
      rw [List.filter_cons_of_neg hp] at huniq ⊢
      exact ih ex hfind huniq


/-- C1: for every existing user and existing book with stock s, Borrow with
    quantity q succeeds iff 1 ≤ q ≤ s, and on success the stock becomes s − q
    and the CurrentBorrow quantity for (user, book) grows by q (the row being
    created with quantity q when absent). -/
theorem borrow_correct (db : DB) (uid bid q : Int) (u : User) (b : Book)
    (huid : uid ≠ 0) (hbid : bid ≠ 0)
    (hu : findUser db uid = some u) (hb : findBook db bid = some b) :
    (exceptOk (borrow db (some uid) (some bid) (some q)).2 = true ↔ 1 ≤ q ∧ q ≤ b.stock)
    ∧ (1 ≤ q → q ≤ b.stock →
        bookStock (borrow db (some uid) (some bid) (some q)).1 bid = some (b.stock - q)
        ∧ cbQty (borrow db (some uid) (some bid) (some q)).1 uid bid = cbQty db uid bid + q) := by
  have htruthy : (!(truthyI (some uid) && truthyI (some bid))) = false := by
    simp [truthyI, huid, hbid]
  by_cases hq : q < 1
  · constructor
    · simp [borrow, htruthy, hq, exceptOk]
    · intro h1; omega
  · by_cases hs : b.stock < q
    · have hbody : (borrowBody db uid bid q).2 = .error "Not enough stock available" := by
        simp [borrowBody, hb, hu, hs]
      constructor
      · simp [borrow, htruthy, hq]
        cases hbb : borrowBody db uid bid q with
        | mk dbr r =>
          rw [hbb] at hbody
          simp at hbody
          subst hbody
          simp [exceptOk]
          omega
      · intro h1 h2; omega
    · -- success case
      have hbody : borrowBody db uid bid q =
          ({ db with
              borrowRecords := db.borrowRecords ++ [⟨uid, bid, "borrow", q⟩],
              currentBorrows :=
                match findCurrentBorrow db uid bid with
                | some ex => db.currentBorrows.map (fun (cb : CurrentBorrow) =>
                    if cb.userId == uid && cb.bookId == bid then
                      { cb with quantity := ex.quantity + q } else cb)
                | none => db.currentBorrows ++ [(⟨uid, bid, q⟩ : CurrentBorrow)],
              books := db.books.map (fun (bk : Book) =>
                if bk.id == bid then { bk with stock := b.stock - q } else bk) },
           .ok ⟨uid, bid, "borrow", q⟩) := by
        simp [borrowBody, hb, hu, hs]
        cases hcb : findCurrentBorrow db uid bid <;> simp
      have hfst : (borrow db (some uid) (some bid) (some q)).1 =
          (borrowBody db uid bid q).1 := by
        simp [borrow, htruthy, hq, hbody]
      constructor
      · simp [borrow, htruthy, hq, hbody, exceptOk]
        omega
      · intro h1 h2
        rw [hfst, hbody]
        constructor
        · simp only [bookStock, findBook]
          rw [find?_book_set]
          rw [show db.books.find? (fun b => b.id == bid) = some b from hb]
          simp
        · cases hcb : findCurrentBorrow db uid bid with
          | some ex =>
            simp only [hcb]
            simp only [cbQty, findCurrentBorrow, hcb]
            rw [find?_cb_set]
            rw [show db.currentBorrows.find?
              (fun cb => cb.userId == uid && cb.bookId == bid) = some ex from hcb]
            simp
          | none =>
            simp only [hcb]
            simp only [cbQty, findCurrentBorrow, hcb]
            rw [List.find?_append]
            rw [show db.currentBorrows.find?
              (fun cb => cb.userId == uid && cb.bookId == bid) = none from hcb]
            simp

/-- C2: for every existing user and book, Return with quantity q against an
    outstanding CurrentBorrow of r succeeds iff 1 ≤ q ≤ r; on success the stock
    grows by q, the row is deleted when q = r and decremented to r − q
    otherwise. -/
theorem return_correct (db : DB) (uid bid q : Int) (u : User) (b : Book) (cbr : CurrentBorrow)
    (huid : uid ≠ 0) (hbid : bid ≠ 0)
    (hu : findUser db uid = some u) (hb : findBook db bid = some b)
    (hcb : findCurrentBorrow db uid bid = some cbr) :
    (exceptOk (returnBook db (some uid) (some bid) (some q)).2 = true ↔ 1 ≤ q ∧ q ≤ cbr.quantity)
    ∧ (1 ≤ q → q ≤ cbr.quantity →
        bookStock (returnBook db (some uid) (some bid) (some q)).1 bid = some (b.stock + q)
        ∧ (q = cbr.quantity →
            findCurrentBorrow (returnBook db (some uid) (some bid) (some q)).1 uid bid = none)
        ∧ (q ≠ cbr.quantity →
            cbQty (returnBook db (some uid) (some bid) (some q)).1 uid bid = cbr.quantity - q)) := by
  have htruthy : (!(truthyI (some uid) && truthyI (some bid))) = false := by
    simp [truthyI, huid, hbid]
  by_cases hq : q < 1
  · constructor
    · simp [returnBook, htruthy, hq, exceptOk]
    · intro h1; omega
  · by_cases hover : cbr.quantity < q
    · have hbody : (returnBody db uid bid q).2 = .error ("User has only borrowed "
          ++ toString cbr.quantity ++ " copies, cannot return " ++ toString q) := by
        simp [returnBody, hb, hu, hcb, hover]
      constructor
      · simp [returnBook, htruthy, hq]
        cases hbb : returnBody db uid bid q with
        | mk dbr r =>
          rw [hbb] at hbody
          simp at hbody
          subst hbody
          simp [exceptOk]
          omega
      · intro h1 h2; omega
    · have hbody : returnBody db uid bid q =
          ({ db with
              borrowRecords := db.borrowRecords ++ [⟨uid, bid, "return", q⟩],
              currentBorrows :=
                if cbr.quantity == q then
                  db.currentBorrows.filter (fun (cb : CurrentBorrow) =>
                    !(cb.userId == uid && cb.bookId == bid))
                else
                  db.currentBorrows.map (fun (cb : CurrentBorrow) =>
                    if cb.userId == uid && cb.bookId == bid then
                      { cb with quantity := cbr.quantity - q } else cb),
              books := db.books.map (fun (bk : Book) =>
                if bk.id == bid then { bk with stock := b.stock + q } else bk) },
           .ok ⟨uid, bid, "return", q⟩) := by
        by_cases heq : (cbr.quantity == q) = true <;>
          simp [returnBody, hb, hu, hcb, hover, heq]
      have hfst : (returnBook db (some uid) (some bid) (some q)).1 =
          (returnBody db uid bid q).1 := by
        simp [returnBook, htruthy, hq, hbody]
      constructor
      · simp [returnBook, htruthy, hq, hbody, exceptOk]
        omega
      · intro h1 h2
        rw [hfst, hbody]
        refine ⟨?_, ?_, ?_⟩
        · simp only [bookStock, findBook]
          rw [find?_book_set]
          rw [show db.books.find? (fun b => b.id == bid) = some b from hb]
          simp
        · intro heq
          have : (cbr.quantity == q) = true := by simp [heq]
          simp only [findCurrentBorrow, this, if_true]
          exact find?_filter_not _ _
        · intro hne
          have hfalse : (cbr.quantity == q) = false := by
            simp
            omega
          simp only [cbQty, findCurrentBorrow, hfalse, Bool.false_eq_true, if_false]
          rw [find?_cb_set]
          rw [show db.currentBorrows.find?
            (fun cb => cb.userId == uid && cb.bookId == bid) = some cbr from hcb]
          simp

/-- C3: whenever a Borrow or Return call fails, no state change is observable;
    moreover even the transaction callbacks themselves perform no write before
    any of their throw sites, so the state they reached at a throw is exactly
    the initial one. -/
theorem lending_failure_preserves_state (db : DB) (userId? bookId? quantity? : Option Int) :
    (∀ e, (borrow db userId? bookId? quantity?).2 = .error e →
      (borrow db userId? bookId? quantity?).1 = db)
    ∧ (∀ e, (returnBook db userId? bookId? quantity?).2 = .error e →
      (returnBook db userId? bookId? quantity?).1 = db)
    ∧ (∀ uid bid q msg, (borrowBody db uid bid q).2 = .error msg →
      (borrowBody db uid bid q).1 = db)
    ∧ (∀ uid bid q msg, (returnBody db uid bid q).2 = .error msg →
      (returnBody db uid bid q).1 = db) := by
  refine ⟨?_, ?_, ?_, ?_⟩
  · intro e h
    rcases hres : borrow db userId? bookId? quantity? with ⟨db', r⟩
    rw [hres] at h
    simp only at h ⊢
    unfold borrow at hres
    split at hres
    · simp at hres; exact hres.1.symm
    · dsimp only at hres
      split at hres
      · simp at hres; exact hres.1.symm
      · split at hres
        · simp at hres; exact hres.1.symm
        · simp at hres
          rw [← hres.2] at h
          simp at h
  · intro e h
    rcases hres : returnBook db userId? bookId? quantity? with ⟨db', r⟩
    rw [hres] at h
    simp only at h ⊢
    unfold returnBook at hres
    split at hres
    · simp at hres; exact hres.1.symm
    · dsimp only at hres
      split at hres
      · simp at hres; exact hres.1.symm
      · split at hres
        · simp at hres; exact hres.1.symm
        · simp at hres
          rw [← hres.2] at h
          simp at h
  · intro uid bid q msg h
    rcases hres : borrowBody db uid bid q with ⟨db', r⟩
    rw [hres] at h
    simp only at h ⊢
    unfold borrowBody at hres
    split at hres
    · simp at hres; exact hres.1.symm
    · split at hres
      · simp at hres; exact hres.1.symm
      · split at hres
        · simp at hres; exact hres.1.symm
        · simp at hres
          rw [← hres.2] at h
          simp at h
  · intro uid bid q msg h
    rcases hres : returnBody db uid bid q with ⟨db', r⟩
    rw [hres] at h
    simp only at h ⊢
    unfold returnBody at hres
    split at hres
    · simp at hres; exact hres.1.symm
    · split at hres
      · simp at hres; exact hres.1.symm
      · split at hres
        · simp at hres; exact hres.1.symm
        · split at hres
          · simp at hres; exact hres.1.symm
          · simp at hres
            rw [← hres.2] at h
            simp at h

theorem borrow_error_state (db : DB) (u? b? q? : Option Int) (db' : DB) (e : ErrResp)
    (h : borrow db u? b? q? = (db', .error e)) : db' = db := by
  unfold borrow at h
  split at h
  · simp at h; exact h.1.symm
  · dsimp only at h
    split at h
    · simp at h; exact h.1.symm
    · split at h
      · simp at h; exact h.1.symm
      · simp at h

theorem return_error_state (db : DB) (u? b? q? : Option Int) (db' : DB) (e : ErrResp)
    (h : returnBook db u? b? q? = (db', .error e)) : db' = db := by
  unfold returnBook at h
  split at h
  · simp at h; exact h.1.symm
  · dsimp only at h
    split at h
    · simp at h; exact h.1.symm
    · split at h
      · simp at h; exact h.1.symm
      · simp at h

theorem borrow_ok_char (db : DB) (u? b? q? : Option Int) (db' : DB) (rcd : BorrowRecord)
    (h : borrow db u? b? q? = (db', .ok rcd)) :
    1 ≤ q?.getD 1 ∧ borrowBody db (u?.getD 0) (b?.getD 0) (q?.getD 1) = (db', .ok rcd) := by
  unfold borrow at h
  split at h
  · simp at h
  · dsimp only at h
    split at h
    · simp at h
    · rename_i hq
      split at h
      · simp at h
      · rename_i heq
        simp at h
        exact ⟨by omega, by rw [heq, h.1, h.2]⟩

theorem return_ok_char (db : DB) (u? b? q? : Option Int) (db' : DB) (rcd : BorrowRecord)
    (h : returnBook db u? b? q? = (db', .ok rcd)) :
    1 ≤ q?.getD 1 ∧ returnBody db (u?.getD 0) (b?.getD 0) (q?.getD 1) = (db', .ok rcd) := by
  unfold returnBook at h
  split at h
  · simp at h
  · dsimp only at h
    split at h
    · simp at h
    · rename_i hq
      split at h
      · simp at h
      · rename_i heq
        simp at h
        exact ⟨by omega, by rw [heq, h.1, h.2]⟩

theorem borrowBody_ok_char (db : DB) (uid bid q : Int) (db' : DB) (rcd : BorrowRecord)
    (h : borrowBody db uid bid q = (db', .ok rcd)) :
    ∃ book, findBook db bid = some book ∧ (findUser db uid).isSome = true
      ∧ ¬(book.stock < q) ∧ rcd = ⟨uid, bid, "borrow", q⟩
      ∧ db' = { db with
          borrowRecords := db.borrowRecords ++ [⟨uid, bid, "borrow", q⟩],
          currentBorrows :=
            match findCurrentBorrow db uid bid with
            | some ex => db.currentBorrows.map (fun (cb : CurrentBorrow) =>
                if cb.userId == uid && cb.bookId == bid then
                  { cb with quantity := ex.quantity + q } else cb)
            | none => db.currentBorrows ++ [(⟨uid, bid, q⟩ : CurrentBorrow)],
          books := db.books.map (fun (bk : Book) =>
            if bk.id == bid then { bk with stock := book.stock - q } else bk) } := by
  cases hfb : findBook db bid with
  | none => unfold borrowBody at h; rw [hfb] at h; simp at h
  | some book =>
    cases hfu : findUser db uid with
    | none => unfold borrowBody at h; rw [hfb, hfu] at h; simp at h
    | some u =>
      by_cases hs : book.stock < q
      · unfold borrowBody at h; rw [hfb, hfu] at h; simp [hs] at h
      · have hthis : borrowBody db uid bid q =
            ({ db with
                borrowRecords := db.borrowRecords ++ [⟨uid, bid, "borrow", q⟩],
                currentBorrows :=
                  match findCurrentBorrow db uid bid with
                  | some ex => db.currentBorrows.map (fun (cb : CurrentBorrow) =>
                      if cb.userId == uid && cb.bookId == bid then
                        { cb with quantity := ex.quantity + q } else cb)
                  | none => db.currentBorrows ++ [(⟨uid, bid, q⟩ : CurrentBorrow)],
                books := db.books.map (fun (bk : Book) =>
                  if bk.id == bid then { bk with stock := book.stock - q } else bk) },
             .ok ⟨uid, bid, "borrow", q⟩) := by
          simp [borrowBody, hfb, hfu, hs]
          cases hcb : findCurrentBorrow db uid bid <;> simp
        rw [hthis] at h
        have h1 := congrArg Prod.fst h
        have h2 := congrArg Prod.snd h
        simp only at h1 h2
        injection h2 with h2
        exact ⟨book, rfl, by simp [hfu], hs, h2.symm, h1.symm⟩

theorem returnBody_ok_char (db : DB) (uid bid q : Int) (db' : DB) (rcd : BorrowRecord)
    (h : returnBody db uid bid q = (db', .ok rcd)) :
    ∃ book cbr, findBook db bid = some book ∧ (findUser db uid).isSome = true
      ∧ findCurrentBorrow db uid bid = some cbr
      ∧ ¬(cbr.quantity < q) ∧ rcd = ⟨uid, bid, "return", q⟩
      ∧ db' = { db with
          borrowRecords := db.borrowRecords ++ [⟨uid, bid, "return", q⟩],
          currentBorrows :=
            if cbr.quantity == q then
              db.currentBorrows.filter (fun (cb : CurrentBorrow) =>
                !(cb.userId == uid && cb.bookId == bid))
            else
              db.currentBorrows.map (fun (cb : CurrentBorrow) =>
                if cb.userId == uid && cb.bookId == bid then
                  { cb with quantity := cbr.quantity - q } else cb),
          books := db.books.map (fun (bk : Book) =>
            if bk.id == bid then { bk with stock := book.stock + q } else bk) } := by
  cases hfb : findBook db bid with
  | none => unfold returnBody at h; rw [hfb] at h; simp at h
  | some book =>
    cases hfu : findUser db uid with
    | none => unfold returnBody at h; rw [hfb, hfu] at h; simp at h
    | some u =>
      cases hcb : findCurrentBorrow db uid bid with
      | none => unfold returnBody at h; rw [hfb, hfu, hcb] at h; simp at h
      | some cbr =>
        by_cases hover : cbr.quantity < q
        · unfold returnBody at h; rw [hfb, hfu, hcb] at h; simp [hover] at h
        · have hthis : returnBody db uid bid q =
              ({ db with
                  borrowRecords := db.borrowRecords ++ [⟨uid, bid, "return", q⟩],
                  currentBorrows :=
                    if cbr.quantity == q then
                      db.currentBorrows.filter (fun (cb : CurrentBorrow) =>
                        !(cb.userId == uid && cb.bookId == bid))
                    else
                      db.currentBorrows.map (fun (cb : CurrentBorrow) =>
                        if cb.userId == uid && cb.bookId == bid then
                          { cb with quantity := cbr.quantity - q } else cb),
                  books := db.books.map (fun (bk : Book) =>
                    if bk.id == bid then { bk with stock := book.stock + q } else bk) },
               .ok ⟨uid, bid, "return", q⟩) := by
            by_cases heq : (cbr.quantity == q) = true <;>
              simp [returnBody, hfb, hfu, hcb, hover, heq]
          rw [hthis] at h
          have h1 := congrArg Prod.fst h
          have h2 := congrArg Prod.snd h
          simp only at h1 h2
          injection h2 with h2
          exact ⟨book, cbr, rfl, by simp [hfu], rfl, hover, h2.symm, h1.symm⟩


theorem stocksNonneg_iff (db : DB) :
    stocksNonneg db = true ↔ ∀ b ∈ db.books, 0 ≤ b.stock := by
  simp [stocksNonneg]

theorem applyOp_stock_nonneg (db : DB) (op : Op)
    (h : ∀ b ∈ db.books, 0 ≤ b.stock) :
    ∀ b ∈ (applyOp db op).books, 0 ≤ b.stock := by
  cases op with
  | borrowCall u? b? q? =>
    simp only [applyOp]
    rcases hres : borrow db u? b? q? with ⟨db', r⟩
    simp only
    cases r with
    | error e => rw [borrow_error_state db u? b? q? db' e hres]; exact h
    | ok rcd =>
      obtain ⟨hq1, hbody⟩ := borrow_ok_char db u? b? q? db' rcd hres
      obtain ⟨book, hfb, hfu, hs, hrcd, hdb'⟩ := borrowBody_ok_char _ _ _ _ _ _ hbody
      subst hdb'
      intro bk hbk
      simp only [List.mem_map] at hbk
      obtain ⟨b0, hb0, rfl⟩ := hbk
      by_cases hid : (b0.id == (b?.getD 0)) = true
      · simp only [if_pos hid]
        show 0 ≤ book.stock - q?.getD 1
        omega
      · simp only [if_neg hid]
        exact h b0 hb0
  | returnCall u? b? q? =>
    simp only [applyOp]
    rcases hres : returnBook db u? b? q? with ⟨db', r⟩
    simp only
    cases r with
    | error e => rw [return_error_state db u? b? q? db' e hres]; exact h
    | ok rcd =>
      obtain ⟨hq1, hbody⟩ := return_ok_char db u? b? q? db' rcd hres
      obtain ⟨book, cbr, hfb, hfu, hcb, hover, hrcd, hdb'⟩ :=
        returnBody_ok_char _ _ _ _ _ _ hbody
      subst hdb'
      intro bk hbk
      simp only [List.mem_map] at hbk
      obtain ⟨b0, hb0, rfl⟩ := hbk
      by_cases hid : (b0.id == (b?.getD 0)) = true
      · simp only [if_pos hid]
        show 0 ≤ book.stock + q?.getD 1
        have hbook : 0 ≤ book.stock := h book (List.mem_of_find?_eq_some hfb)
        omega
      · simp only [if_neg hid]
        exact h b0 hb0

/-- C4: for every store whose books all have non-negative stock, stock stays
    non-negative after any sequence of Borrow and Return calls (accepted calls
    change the state, rejected ones leave it unchanged). -/
theorem stock_nonneg_invariant (db : DB) (ops : List Op)
    (h : stocksNonneg db = true) : stocksNonneg (applyOps db ops) = true := by
  induction ops generalizing db with
  | nil => simpa [applyOps] using h
  | cons op ops ih =>
    simp only [applyOps]
    apply ih
    rw [stocksNonneg_iff] at h ⊢
    exact applyOp_stock_nonneg db op h

/-- C5 counterexample: a Borrow naming a missing book fails with HTTP status
    400, not the 404 the claim asserts. -/
theorem borrow_missing_book_status_cex :
    borrow dbEmpty (some 1) (some 1) (some 1)
      = (dbEmpty, .error ⟨400, "Book not found"⟩)
    ∧ (400 : Nat) ≠ 404 :=
  ⟨rfl, by decide⟩

/-- C5 amended: a Borrow or Return call naming a missing book or user fails
    with the not-found message, but the handlers catch it and answer with
    status 400 — the same status as validation failures, never 404. -/
theorem lending_missing_entity_status400 (db : DB) (uid bid q : Int)
    (huid : uid ≠ 0) (hbid : bid ≠ 0) (hq : 1 ≤ q) :
    (findBook db bid = none →
      borrow db (some uid) (some bid) (some q) = (db, .error ⟨400, "Book not found"⟩)
      ∧ returnBook db (some uid) (some bid) (some q) = (db, .error ⟨400, "Book not found"⟩))
    ∧ (∀ b, findBook db bid = some b → findUser db uid = none →
      borrow db (some uid) (some bid) (some q) = (db, .error ⟨400, "User not found"⟩)
      ∧ returnBook db (some uid) (some bid) (some q) = (db, .error ⟨400, "User not found"⟩)) := by
  have htruthy : (!(truthyI (some uid) && truthyI (some bid))) = false := by
    simp [truthyI, huid, hbid]
  constructor
  · intro hfb
    constructor
    · simp [borrow, htruthy, borrowBody, hfb]
      omega
    · simp [returnBook, htruthy, returnBody, hfb]
      omega
  · intro b hfb hfu
    constructor
    · simp [borrow, htruthy, borrowBody, hfb, hfu]
      omega
    · simp [returnBook, htruthy, returnBody, hfb, hfu]
      omega

theorem lending_missing_entity_status400_witness :
    borrow dbEmpty (some 1) (some 1) (some 1) = (dbEmpty, .error ⟨400, "Book not found"⟩)
    ∧ returnBook dbEmpty (some 1) (some 1) (some 1)
      = (dbEmpty, .error ⟨400, "Book not found"⟩) :=
  (lending_missing_entity_status400 dbEmpty 1 1 1 (by decide) (by decide) (by decide)).1 rfl

/-- C7 counterexample: a Borrow naming a missing book with quantity 0 fails
    with the quantity-validation error, not the not-found error the claim
    asserts. -/
theorem borrow_quantity_checked_first_cex :
    borrow dbEmpty (some 1) (some 1) (some 0)
      = (dbEmpty, .error ⟨400, "Valid quantity is required"⟩)
    ∧ "Valid quantity is required" ≠ "Book not found" :=
  ⟨rfl, by decide⟩

/-- C7 amended: quantity validation runs before the existence checks: a Borrow
    or Return with quantity < 1 fails with the validation error no matter
    whether the named book and user exist. -/
theorem quantity_validated_before_existence (db : DB) (uid bid q : Int)
    (huid : uid ≠ 0) (hbid : bid ≠ 0) (hq : q < 1) :
    borrow db (some uid) (some bid) (some q)
      = (db, .error ⟨400, "Valid quantity is required"⟩)
    ∧ returnBook db (some uid) (some bid) (some q)
      = (db, .error ⟨400, "Valid quantity is required"⟩) := by
  have htruthy : (!(truthyI (some uid) && truthyI (some bid))) = false := by
    simp [truthyI, huid, hbid]
  constructor
  · simp [borrow, htruthy, hq]
  · simp [returnBook, htruthy, hq]

theorem quantity_validated_before_existence_witness :
    borrow dbEmpty (some 1) (some 1) (some 0)
      = (dbEmpty, .error ⟨400, "Valid quantity is required"⟩)
    ∧ returnBook dbEmpty (some 1) (some 1) (some 0)
      = (dbEmpty, .error ⟨400, "Valid quantity is required"⟩) :=
  quantity_validated_before_existence dbEmpty 1 1 0 (by decide) (by decide) (by decide)


theorem borrow_correct_witness :
    (exceptOk (borrow dbOne (some 1) (some 1) (some 3)).2 = true
      ↔ (1 : Int) ≤ 3 ∧ (3 : Int) ≤ (5 : Int))
    ∧ ((1 : Int) ≤ 3 → (3 : Int) ≤ (5 : Int) →
        bookStock (borrow dbOne (some 1) (some 1) (some 3)).1 1 = some (5 - 3)
        ∧ cbQty (borrow dbOne (some 1) (some 1) (some 3)).1 1 1 = cbQty dbOne 1 1 + 3) :=
  borrow_correct dbOne 1 1 3 ⟨1, "John Doe", "john@example.com"⟩
    ⟨1, "The Great Gatsby", "F. Scott Fitzgerald", 10, 5, 1⟩
    (by decide) (by decide) rfl rfl

theorem return_correct_witness :
    (exceptOk (returnBook dbLoan (some 1) (some 1) (some 2)).2 = true
      ↔ (1 : Int) ≤ 2 ∧ (2 : Int) ≤ (3 : Int))
    ∧ ((1 : Int) ≤ 2 → (2 : Int) ≤ (3 : Int) →
        bookStock (returnBook dbLoan (some 1) (some 1) (some 2)).1 1 = some (2 + 2)
        ∧ ((2 : Int) = (3 : Int) →
            findCurrentBorrow (returnBook dbLoan (some 1) (some 1) (some 2)).1 1 1 = none)
        ∧ ((2 : Int) ≠ (3 : Int) →
            cbQty (returnBook dbLoan (some 1) (some 1) (some 2)).1 1 1 = 3 - 2)) :=
  return_correct dbLoan 1 1 2 ⟨1, "John Doe", "john@example.com"⟩
    ⟨1, "The Great Gatsby", "F. Scott Fitzgerald", 10, 2, 1⟩ ⟨1, 1, 3⟩
    (by decide) (by decide) rfl rfl rfl

theorem lending_failure_preserves_state_witness :
    (borrow dbEmpty (some 1) (some 1) (some 1)).1 = dbEmpty :=
  (lending_failure_preserves_state dbEmpty (some 1) (some 1) (some 1)).1
    ⟨400, "Book not found"⟩ rfl

theorem stock_nonneg_invariant_witness :
    stocksNonneg (applyOps dbOne
      [.borrowCall (some 1) (some 1) (some 3),
       .returnCall (some 1) (some 1) (some 2)]) = true :=
  stock_nonneg_invariant dbOne
    [.borrowCall (some 1) (some 1) (some 3),
     .returnCall (some 1) (some 1) (some 2)]
    (by decide)

/-- C6: deleting a book fails with a conflict error and no state change when a
    CurrentBorrow row references it; otherwise the deletion removes the book's
    BorrowRecord history and the book itself, keeping everything else. -/
theorem deleteBook_correct (db : DB) (bid : Int) :
    ((∃ cb ∈ db.currentBorrows, cb.bookId = bid) →
      deleteBook db bid
        = (db, .error ⟨400, "Cannot delete book that is currently borrowed by users"⟩))
    ∧ ((∀ cb ∈ db.currentBorrows, cb.bookId ≠ bid) → ∀ b, findBook db bid = some b →
        exceptOk (deleteBook db bid).2 = true
        ∧ findBook (deleteBook db bid).1 bid = none
        ∧ (∀ r ∈ (deleteBook db bid).1.borrowRecords, r.bookId ≠ bid)
        ∧ (∀ r ∈ db.borrowRecords, r.bookId ≠ bid → r ∈ (deleteBook db bid).1.borrowRecords)
        ∧ (deleteBook db bid).1.currentBorrows = db.currentBorrows
        ∧ (∀ b' ∈ db.books, b'.id ≠ bid → b' ∈ (deleteBook db bid).1.books)) := by
  constructor
  · rintro ⟨cb, hmem, hcbid⟩
    have hfmem : cb ∈ db.currentBorrows.filter (fun cb => cb.bookId == bid) :=
      List.mem_filter.2 ⟨hmem, by simp [hcbid]⟩
    have hlen : (db.currentBorrows.filter (fun cb => cb.bookId == bid)).length > 0 :=
      List.length_pos.2 (List.ne_nil_of_mem hfmem)
    simp [deleteBook, hlen]
  · intro hnone b hfb
    have hfe : db.currentBorrows.filter (fun cb => cb.bookId == bid) = [] := by
      rw [List.filter_eq_nil_iff]
      intro cb hmem
      simp [hnone cb hmem]
    have hlen : ¬ ((db.currentBorrows.filter (fun cb => cb.bookId == bid)).length > 0) := by
      rw [hfe]; simp
    have hdel : deleteBook db bid =
        ({ db with
            borrowRecords := db.borrowRecords.filter (fun r => !(r.bookId == bid)),
            currentBorrows := db.currentBorrows.filter (fun cb => !(cb.bookId == bid)),
            books := db.books.filter (fun b => !(b.id == bid)) },
         .ok "Book deleted successfully") := by
      simp [deleteBook, hlen, hfb]
    rw [hdel]
    refine ⟨rfl, ?_, ?_, ?_, ?_, ?_⟩
    · exact find?_filter_not _ _
    · intro r hr
      have := List.of_mem_filter hr
      simpa using this
    · intro r hr hrne
      exact List.mem_filter.2 ⟨hr, by simpa using hrne⟩
    · rw [List.filter_eq_self]
      intro cb hmem
      simpa using hnone cb hmem
    · intro b' hb' hbne
      exact List.mem_filter.2 ⟨hb', by simpa using hbne⟩

theorem deleteBook_correct_witness :
    (deleteBook dbLoan 1
      = (dbLoan, .error ⟨400, "Cannot delete book that is currently borrowed by users"⟩))
    ∧ (exceptOk (deleteBook dbOne 1).2 = true
        ∧ findBook (deleteBook dbOne 1).1 1 = none) :=
  ⟨(deleteBook_correct dbLoan 1).1 ⟨⟨1, 1, 3⟩, by decide, rfl⟩,
   ((deleteBook_correct dbOne 1).2 (by decide)
      ⟨1, "The Great Gatsby", "F. Scott Fitzgerald", 10, 5, 1⟩ rfl).1,
   ((deleteBook_correct dbOne 1).2 (by decide)
      ⟨1, "The Great Gatsby", "F. Scott Fitzgerald", 10, 5, 1⟩ rfl).2.1⟩

theorem validateBook_none_iff (r : BookReq) :
    validateBook r = none ↔
      (jsTrim r.title ≠ "" ∧ jsTrim r.author ≠ ""
       ∧ (∃ p, r.price = some p ∧ 0 ≤ p)
       ∧ (∃ s, r.stock = some s ∧ 0 ≤ s)
       ∧ truthyI r.bookCategoryId = true) := by
  unfold validateBook
  by_cases ht : jsTrim r.title = ""
  · simp [ht]
  · by_cases ha : jsTrim r.author = ""
    · simp [ht, ha]
    · rcases hp : r.price with _ | p
      · simp [ht, ha, hp]
      · by_cases hpneg : p < 0
        · simp [ht, ha, hp, hpneg]
        · rcases hs : r.stock with _ | sv
          · simp [ht, ha, hp, hpneg, hs]
          · by_cases hsneg : sv < 0
            · simp [ht, ha, hp, hpneg, hs, hsneg]
            · by_cases hcid : truthyI r.bookCategoryId = true
              · simp [ht, ha, hp, hpneg, hs, hsneg, hcid]
                omega
              · simp [ht, ha, hp, hpneg, hs, hsneg, hcid]

theorem validateBook_some_status (r : BookReq) (e : ErrResp)
    (h : validateBook r = some e) : e.status = 400 := by
  unfold validateBook at h
  split at h
  · injection h with h; subst h; rfl
  · split at h
    · injection h with h; subst h; rfl
    · split at h
      · injection h with h; subst h; rfl
      · split at h
        · injection h with h; subst h; rfl
        · split at h
          · injection h with h; subst h; rfl
          · split at h
            · injection h with h; subst h; rfl
            · split at h
              · injection h with h; subst h; rfl
              · simp at h


theorem findCategory_zero_none (db : DB) (hcat : ∀ c ∈ db.categories, c.id ≠ 0) :
    findCategory db 0 = none := by
  unfold findCategory
  rw [List.find?_eq_none]
  intro c hc
  simp [hcat c hc]

theorem acceptCond_validate_none (db : DB) (r : BookReq)
    (hcat : ∀ c ∈ db.categories, c.id ≠ 0) (hacc : acceptCond db r) :
    validateBook r = none := by
  obtain ⟨h1, h2, hps, hss, ⟨cid, hcid, hcs⟩⟩ := hacc
  rw [validateBook_none_iff]
  refine ⟨h1, h2, hps, hss, ?_⟩
  rw [hcid]
  simp only [truthyI, ne_eq, bne_iff_ne]
  intro h0
  rw [h0] at hcs
  rw [findCategory_zero_none db hcat] at hcs
  simp at hcs

theorem createBook_ok_iff (db : DB) (r : BookReq) (newId : Int)
    (hcat : ∀ c ∈ db.categories, c.id ≠ 0) :
    exceptOk (createBook db r newId).2 = true ↔ acceptCond db r := by
  cases hv : validateBook r with
  | some e =>
    simp only [createBook, hv, exceptOk]
    constructor
    · intro h; simp at h
    · intro hacc
      have := acceptCond_validate_none db r hcat hacc
      rw [hv] at this
      simp at this
  | none =>
    obtain ⟨h1, h2, hps, hss, htr⟩ := (validateBook_none_iff r).1 hv
    rcases hbc : r.bookCategoryId with _ | cid
    · rw [hbc] at htr; simp [truthyI] at htr
    · cases hfc : findCategory db cid with
      | none =>
        have hcc : createBook db r newId = (db, .error ⟨400, "Invalid category"⟩) := by
          simp [createBook, hv, hbc, hfc]
        rw [hcc]
        simp only [exceptOk, acceptCond]
        constructor
        · intro h; simp at h
        · rintro ⟨_, _, _, _, ⟨cid2, hcid2, hcs2⟩⟩
          rw [hbc] at hcid2
          injection hcid2 with hcid2
          rw [← hcid2, hfc] at hcs2
          simp at hcs2
      | some c =>
        have hcc : (createBook db r newId).2 = .ok
            ⟨newId, jsTrim r.title, jsTrim r.author, r.price.getD 0, r.stock.getD 0, cid⟩ := by
          simp [createBook, hv, hbc, hfc]
        rw [hcc]
        simp only [exceptOk, acceptCond, true_iff]
        exact ⟨h1, h2, hps, hss, cid, hbc, by rw [hfc]; rfl⟩

theorem updateBook_ok_iff (db : DB) (bid : Int) (r : BookReq) (b : Book)
    (hcat : ∀ c ∈ db.categories, c.id ≠ 0) (hfb : findBook db bid = some b) :
    exceptOk (updateBook db bid r).2 = true ↔ acceptCond db r := by
  cases hv : validateBook r with
  | some e =>
    simp only [updateBook, hv, exceptOk]
    constructor
    · intro h; simp at h
    · intro hacc
      have := acceptCond_validate_none db r hcat hacc
      rw [hv] at this
      simp at this
  | none =>
    obtain ⟨h1, h2, hps, hss, htr⟩ := (validateBook_none_iff r).1 hv
    rcases hbc : r.bookCategoryId with _ | cid
    · rw [hbc] at htr; simp [truthyI] at htr
    · cases hfc : findCategory db cid with
      | none =>
        have hcc : updateBook db bid r = (db, .error ⟨400, "Invalid category"⟩) := by
          simp [updateBook, hv, hfb, hbc, hfc]
        rw [hcc]
        simp only [exceptOk, acceptCond]
        constructor
        · intro h; simp at h
        · rintro ⟨_, _, _, _, ⟨cid2, hcid2, hcs2⟩⟩
          rw [hbc] at hcid2
          injection hcid2 with hcid2
          rw [← hcid2, hfc] at hcs2
          simp at hcs2
      | some c =>
        have hcc : exceptOk (updateBook db bid r).2 = true := by
          simp [updateBook, hv, hfb, hbc, hfc, exceptOk]
        rw [hcc]
        simp only [acceptCond, true_iff]
        exact ⟨h1, h2, hps, hss, cid, hbc, by rw [hfc]; rfl⟩

theorem createBook_error_state (db : DB) (r : BookReq) (newId : Int) (e : ErrResp)
    (h : (createBook db r newId).2 = .error e) :
    (createBook db r newId).1 = db ∧ e.status = 400 := by
  cases hv : validateBook r with
  | some e0 =>
    have hcc : createBook db r newId = (db, .error e0) := by simp [createBook, hv]
    rw [hcc] at h ⊢
    simp only at h ⊢
    injection h with h
    refine ⟨by trivial, ?_⟩
    rw [← h]
    exact validateBook_some_status r e0 hv
  | none =>
    cases hfc : findCategory db (r.bookCategoryId.getD 0) with
    | none =>
      have hcc : createBook db r newId = (db, .error ⟨400, "Invalid category"⟩) := by
        simp [createBook, hv, hfc]
      rw [hcc] at h ⊢
      simp only at h ⊢
      injection h with h
      rw [← h]
      exact ⟨by trivial, by trivial⟩
    | some c =>
      have hcc : (createBook db r newId).2 = .ok
          ⟨newId, jsTrim r.title, jsTrim r.author, r.price.getD 0, r.stock.getD 0,
            r.bookCategoryId.getD 0⟩ := by
        simp [createBook, hv, hfc]
      rw [hcc] at h
      simp at h

theorem updateBook_error_state (db : DB) (bid : Int) (r : BookReq) (b : Book) (e : ErrResp)
    (hfb : findBook db bid = some b)
    (h : (updateBook db bid r).2 = .error e) :
    (updateBook db bid r).1 = db ∧ e.status = 400 := by
  cases hv : validateBook r with
  | some e0 =>
    have hcc : updateBook db bid r = (db, .error e0) := by simp [updateBook, hv]
    rw [hcc] at h ⊢
    simp only at h ⊢
    injection h with h
    refine ⟨by trivial, ?_⟩
    rw [← h]
    exact validateBook_some_status r e0 hv
  | none =>
    cases hfc : findCategory db (r.bookCategoryId.getD 0) with
    | none =>
      have hcc : updateBook db bid r = (db, .error ⟨400, "Invalid category"⟩) := by
        simp [updateBook, hv, hfb, hfc]
      rw [hcc] at h ⊢
      simp only at h ⊢
      injection h with h
      rw [← h]
      exact ⟨by trivial, by trivial⟩
    | some c =>
      have hcc : exceptOk (updateBook db bid r).2 = true := by
        simp [updateBook, hv, hfb, hfc, exceptOk]
      rw [h] at hcc
      simp [exceptOk] at hcc

/-- C8: creating or updating a book is rejected with status 400, before any
    write, exactly when the title or author is empty after trimming, the price
    or stock is missing/non-numeric or negative, or the referenced category
    does not exist (category ids being nonzero); it is accepted otherwise. -/
theorem book_validation_correct (db : DB) (r : BookReq) (newId bid : Int)
    (hcat : ∀ c ∈ db.categories, c.id ≠ 0) :
    (exceptOk (createBook db r newId).2 = true ↔ acceptCond db r)
    ∧ (∀ e, (createBook db r newId).2 = .error e →
        (createBook db r newId).1 = db ∧ e.status = 400)
    ∧ (∀ b, findBook db bid = some b →
        ((exceptOk (updateBook db bid r).2 = true ↔ acceptCond db r)
         ∧ (∀ e, (updateBook db bid r).2 = .error e →
             (updateBook db bid r).1 = db ∧ e.status = 400))) :=
  ⟨createBook_ok_iff db r newId hcat,
   fun e he => createBook_error_state db r newId e he,
   fun b hfb =>
     ⟨updateBook_ok_iff db bid r b hcat hfb,
      fun e he => updateBook_error_state db bid r b e hfb he⟩⟩

theorem book_validation_correct_witness :
    (exceptOk (createBook dbOne ⟨"T", "A", some 5, some 2, some 1⟩ 7).2 = true
      ↔ acceptCond dbOne ⟨"T", "A", some 5, some 2, some 1⟩)
    ∧ acceptCond dbOne ⟨"T", "A", some 5, some 2, some 1⟩ :=
  ⟨(book_validation_correct dbOne ⟨"T", "A", some 5, some 2, some 1⟩ 7 1 (by decide)).1,
   ⟨by decide, by decide, ⟨5, rfl, by decide⟩, ⟨2, rfl, by decide⟩, ⟨1, rfl, rfl⟩⟩⟩

theorem borrowBody_error_msg (db : DB) (uid bid q : Int) (msg : String)
    (h : (borrowBody db uid bid q).2 = .error msg) :
    msg = "Book not found" ∨ msg = "User not found"
    ∨ msg = "Not enough stock available" := by
  unfold borrowBody at h
  split at h
  · left; simp at h; exact h.symm
  · split at h
    · right; left; simp at h; exact h.symm
    · split at h
      · right; right; simp at h; exact h.symm
      · simp at h

theorem returnBody_error_msg (db : DB) (uid bid q : Int) (msg : String)
    (h : (returnBody db uid bid q).2 = .error msg) :
    msg = "Book not found" ∨ msg = "User not found"
    ∨ msg = "User has not borrowed this book"
    ∨ ∃ a b : Int, msg = "User has only borrowed " ++ toString a
        ++ " copies, cannot return " ++ toString b := by
  unfold returnBody at h
  split at h
  · left; simp at h; exact h.symm
  · split at h
    · right; left; simp at h; exact h.symm
    · split at h
      · right; right; left; simp at h; exact h.symm
      · split at h
        · right; right; right
          rename_i cbr hcbeq hover
          simp at h
          exact ⟨cbr.quantity, q, h.symm⟩
        · simp at h

theorem borrow_error_char (db : DB) (u? b? q? : Option Int) (db' : DB) (e : ErrResp)
    (h : borrow db u? b? q? = (db', .error e)) :
    e.error = "User ID and Book ID are required"
    ∨ (q?.getD 1 < 1 ∧ e.error = "Valid quantity is required")
    ∨ ∃ msg, (borrowBody db (u?.getD 0) (b?.getD 0) (q?.getD 1)).2 = .error msg
        ∧ e.error = msg := by
  unfold borrow at h
  split at h
  · left; simp at h; rw [← h.2]
  · dsimp only at h
    split at h
    · right; left
      rename_i hq
      simp at h
      exact ⟨hq, by rw [← h.2]⟩
    · right; right
      rename_i heq
      split at h
      · rename_i dbr msg hb
        simp at h
        exact ⟨msg, by rw [hb], by rw [← h.2]⟩
      · simp at h

theorem return_error_char (db : DB) (u? b? q? : Option Int) (db' : DB) (e : ErrResp)
    (h : returnBook db u? b? q? = (db', .error e)) :
    e.error = "User ID and Book ID are required"
    ∨ (q?.getD 1 < 1 ∧ e.error = "Valid quantity is required")
    ∨ ∃ msg, (returnBody db (u?.getD 0) (b?.getD 0) (q?.getD 1)).2 = .error msg
        ∧ e.error = msg := by
  unfold returnBook at h
  split at h
  · left; simp at h; rw [← h.2]
  · dsimp only at h
    split at h
    · right; left
      rename_i hq
      simp at h
      exact ⟨hq, by rw [← h.2]⟩
    · right; right
      rename_i heq
      split at h
      · rename_i dbr msg hb
        simp at h
        exact ⟨msg, by rw [hb], by rw [← h.2]⟩
      · simp at h

/-- C10: omitting the quantity field of POST /borrow or POST /return makes the
    call behave exactly as quantity 1, and the omission never triggers the
    quantity-validation error. -/
theorem quantity_defaults_to_one (db : DB) (u? b? : Option Int) :
    borrow db u? b? none = borrow db u? b? (some 1)
    ∧ returnBook db u? b? none = returnBook db u? b? (some 1)
    ∧ hasErrMsg (borrow db u? b? none).2 "Valid quantity is required" = false
    ∧ hasErrMsg (returnBook db u? b? none).2 "Valid quantity is required" = false := by
  refine ⟨rfl, rfl, ?_, ?_⟩
  · rcases hres : borrow db u? b? none with ⟨db', r⟩
    cases r with
    | ok rcd => simp [hasErrMsg]
    | error e =>
      simp only [hasErrMsg]
      rcases borrow_error_char db u? b? none db' e hres with h1 | ⟨hq, h2⟩ | ⟨msg, hm, he⟩
      · rw [h1]; decide
      · simp at hq
      · rw [he]
        rcases borrowBody_error_msg _ _ _ _ _ hm with h | h | h <;> rw [h] <;> decide
  · rcases hres : returnBook db u? b? none with ⟨db', r⟩
    cases r with
    | ok rcd => simp [hasErrMsg]
    | error e =>
      simp only [hasErrMsg]
      rcases return_error_char db u? b? none db' e hres with h1 | ⟨hq, h2⟩ | ⟨msg, hm, he⟩
      · rw [h1]; decide
      · simp at hq
      · rw [he]
        rcases returnBody_error_msg _ _ _ _ _ hm with h | h | h | ⟨a, b, h⟩
        · rw [h]; decide
        · rw [h]; decide
        · rw [h]; decide
        · rw [h, beq_eq_false_iff_ne]
          intro heq
          have hh := congrArg (fun s => s.data.head?) heq
          simp at hh

theorem filter_map_cbset (l : List CurrentBorrow) (uid bid c bid' : Int) :
    (l.map (fun (cb : CurrentBorrow) =>
        if cb.userId == uid && cb.bookId == bid then { cb with quantity := c } else cb)).filter
      (fun cb => cb.bookId == bid')
    = (l.filter (fun cb => cb.bookId == bid')).map (fun (cb : CurrentBorrow) =>
        if cb.userId == uid && cb.bookId == bid then { cb with quantity := c } else cb) := by
  rw [List.filter_map]
  congr 1
  apply List.filter_congr
  intro cb _
  simp only [Function.comp]
  by_cases h : (cb.userId == uid && cb.bookId == bid) = true
  · rw [if_pos h]
  · rw [if_neg h]

theorem filter_map_bookset (l : List Book) (bid c bid' : Int) :
    (l.map (fun (b : Book) =>
        if b.id == bid then { b with stock := c } else b)).filter (fun b => b.id == bid')
    = (l.filter (fun b => b.id == bid')).map (fun (b : Book) =>
        if b.id == bid then { b with stock := c } else b) := by
  rw [List.filter_map]
  congr 1
  apply List.filter_congr
  intro b _
  simp only [Function.comp]
  by_cases h : (b.id == bid) = true
  · rw [if_pos h]
  · rw [if_neg h]

theorem sum_qty_map_set (uid bid c : Int) (l : List CurrentBorrow) :
    ((l.map (fun (cb : CurrentBorrow) =>
        if cb.userId == uid && cb.bookId == bid then { cb with quantity := c } else cb)).map
      CurrentBorrow.quantity).sum
    = (l.map CurrentBorrow.quantity).sum
      - ((l.filter (fun cb => cb.userId == uid && cb.bookId == bid)).map
          CurrentBorrow.quantity).sum
      + ((l.filter (fun cb => cb.userId == uid && cb.bookId == bid)).length : Int) * c := by
  induction l with
  | nil => simp
  | cons h t ih =>
    by_cases hp : (h.userId == uid && h.bookId == bid) = true
    · rw [@List.filter_cons_of_pos _ (fun cb => cb.userId == uid && cb.bookId == bid) h t hp]
      simp only [List.map_cons, List.sum_cons, List.length_cons, if_pos hp]
      rw [ih]
      push_cast
      ring
    · rw [@List.filter_cons_of_neg _ (fun cb => cb.userId == uid && cb.bookId == bid) h t hp]
      simp only [List.map_cons, List.sum_cons, if_neg hp]
      rw [ih]
      ring

theorem sum_stock_map_set (bid c : Int) (l : List Book) :
    ((l.map (fun (b : Book) =>
        if b.id == bid then { b with stock := c } else b)).map Book.stock).sum
    = (l.map Book.stock).sum
      - ((l.filter (fun b => b.id == bid)).map Book.stock).sum
      + ((l.filter (fun b => b.id == bid)).length : Int) * c := by
  induction l with
  | nil => simp
  | cons h t ih =>
    by_cases hp : (h.id == bid) = true
    · rw [@List.filter_cons_of_pos _ (fun b => b.id == bid) h t hp]
      simp only [List.map_cons, List.sum_cons, List.length_cons, if_pos hp]
      rw [ih]
      push_cast
      ring
    · rw [@List.filter_cons_of_neg _ (fun b => b.id == bid) h t hp]
      simp only [List.map_cons, List.sum_cons, if_neg hp]
      rw [ih]
      ring

theorem sum_qty_filter_split (l : List CurrentBorrow) (p r : CurrentBorrow → Bool) :
    ((l.filter (fun a => p a && !(r a))).map CurrentBorrow.quantity).sum
    = ((l.filter p).map CurrentBorrow.quantity).sum
      - ((l.filter (fun a => p a && r a)).map CurrentBorrow.quantity).sum := by
  induction l with
  | nil => simp
  | cons h t ih =>
    by_cases hp : p h = true
    · by_cases hr : r h = true
      · rw [List.filter_cons_of_neg (by simp [hp, hr]), List.filter_cons_of_pos hp,
          List.filter_cons_of_pos (by simp [hp, hr])]
        simp only [List.map_cons, List.sum_cons]
        rw [ih]
        ring
      · rw [List.filter_cons_of_pos (by simp [hp, hr]), List.filter_cons_of_pos hp,
          List.filter_cons_of_neg (by simp [hp, hr])]
        simp only [List.map_cons, List.sum_cons]
        rw [ih]
        ring
    · rw [List.filter_cons_of_neg (by simp [hp]), List.filter_cons_of_neg hp,
        List.filter_cons_of_neg (by simp [hp])]
      exact ih

theorem sum_stock_set_general (l : List Book) (bid c bid' : Int) (book : Book)
    (hf : l.find? (fun b => b.id == bid) = some book)
    (hu : (l.filter (fun b => b.id == bid)).length ≤ 1) :
    (((l.map (fun (b : Book) =>
        if b.id == bid then { b with stock := c } else b)).filter
          (fun b => b.id == bid')).map Book.stock).sum
    = ((l.filter (fun b => b.id == bid')).map Book.stock).sum
      + (if bid' = bid then c - book.stock else 0) := by
  rw [filter_map_bookset]
  by_cases hbb : bid' = bid
  · subst hbb
    rw [filter_eq_single_of_find? (fun b => b.id == bid') l book hf hu]
    have hb := List.find?_some hf
    have hb2 : book.id = bid' := by simpa using hb
    simp [hb2]
  · have hnone : ∀ b ∈ l.filter (fun b => b.id == bid'),
        (if (b.id == bid) = true then ({ b with stock := c } : Book) else b) = b := by
      intro b hb
      have hid := (List.mem_filter.1 hb).2
      have hne : ¬ ((b.id == bid) = true) := by
        simp at hid ⊢
        omega
      rw [if_neg hne]
    rw [List.map_congr_left hnone]
    simp [hbb]

theorem sum_out_set_general (l : List CurrentBorrow) (uid bid c bid' : Int)
    (ex : CurrentBorrow)
    (hf : l.find? (fun cb => cb.userId == uid && cb.bookId == bid) = some ex)
    (hu : (l.filter (fun cb => cb.userId == uid && cb.bookId == bid)).length ≤ 1) :
    (((l.map (fun (cb : CurrentBorrow) =>
        if cb.userId == uid && cb.bookId == bid then { cb with quantity := c } else cb)).filter
          (fun cb => cb.bookId == bid')).map CurrentBorrow.quantity).sum
    = ((l.filter (fun cb => cb.bookId == bid')).map CurrentBorrow.quantity).sum
      + (if bid' = bid then c - ex.quantity else 0) := by
  rw [filter_map_cbset, sum_qty_map_set]
  rw [List.filter_filter]
  by_cases hbb : bid' = bid
  · subst hbb
    have hcong : l.filter (fun cb => (cb.userId == uid && cb.bookId == bid') && cb.bookId == bid')
        = l.filter (fun cb => cb.userId == uid && cb.bookId == bid') := by
      apply List.filter_congr
      intro cb _
      by_cases h1 : (cb.userId == uid) = true <;> by_cases h2 : (cb.bookId == bid') = true <;>
        simp [h1, h2]
    rw [hcong, filter_eq_single_of_find? _ l ex hf hu]
    simp
    ring
  · have hcong : l.filter (fun cb => (cb.userId == uid && cb.bookId == bid) && cb.bookId == bid')
        = [] := by
      rw [List.filter_eq_nil_iff]
      intro cb _
      intro hcontra
      simp at hcontra
      obtain ⟨⟨_, hb1⟩, hb2⟩ := hcontra
      omega
    rw [hcong]
    simp [hbb]

theorem sum_out_remove_general (l : List CurrentBorrow) (uid bid bid' : Int)
    (ex : CurrentBorrow)
    (hf : l.find? (fun cb => cb.userId == uid && cb.bookId == bid) = some ex)
    (hu : (l.filter (fun cb => cb.userId == uid && cb.bookId == bid)).length ≤ 1) :
    (((l.filter (fun (cb : CurrentBorrow) =>
        !(cb.userId == uid && cb.bookId == bid))).filter
          (fun cb => cb.bookId == bid')).map CurrentBorrow.quantity).sum
    = ((l.filter (fun cb => cb.bookId == bid')).map CurrentBorrow.quantity).sum
      - (if bid' = bid then ex.quantity else 0) := by
  rw [List.filter_filter]
  have hsplit : l.filter (fun cb => (cb.bookId == bid') && !(cb.userId == uid && cb.bookId == bid))
      = l.filter (fun a => (fun cb => cb.bookId == bid') a && !((fun cb => cb.userId == uid && cb.bookId == bid) a)) := rfl
  rw [hsplit, sum_qty_filter_split]
  by_cases hbb : bid' = bid
  · subst hbb
    have hcong : l.filter (fun cb => cb.bookId == bid' && (cb.userId == uid && cb.bookId == bid'))
        = l.filter (fun cb => cb.userId == uid && cb.bookId == bid') := by
      apply List.filter_congr
      intro cb _
      by_cases h1 : (cb.userId == uid) = true <;> by_cases h2 : (cb.bookId == bid') = true <;>
        simp [h1, h2]
    rw [hcong, filter_eq_single_of_find? _ l ex hf hu]
    simp
  · have hcong : l.filter (fun cb => cb.bookId == bid' && (cb.userId == uid && cb.bookId == bid))
        = [] := by
      rw [List.filter_eq_nil_iff]
      intro cb _
      intro hcontra
      simp at hcontra
      obtain ⟨hb1, _, hb2⟩ := hcontra
      omega
    rw [hcong]
    simp [hbb]

/-- C9: for every book, stock plus the total outstanding CurrentBorrow
    quantity referencing it is unchanged by every accepted Borrow or Return
    call with integer quantity (given the unique-key discipline of the
    store: at most one book row per id, one CurrentBorrow row per
    (user, book)). -/
theorem conservation_invariant (db : DB) (uid bid q : Int) (db1 db2 : DB)
    (r1 r2 : BorrowRecord) (bid' : Int)
    (hbu : (db.books.filter (fun b => b.id == bid)).length ≤ 1)
    (hcu : (db.currentBorrows.filter
        (fun cb => cb.userId == uid && cb.bookId == bid)).length ≤ 1) :
    (borrow db (some uid) (some bid) (some q) = (db1, .ok r1) →
      conserved db1 bid' = conserved db bid')
    ∧ (returnBook db (some uid) (some bid) (some q) = (db2, .ok r2) →
      conserved db2 bid' = conserved db bid') := by
  constructor
  · intro h
    obtain ⟨hq1, hbody⟩ := borrow_ok_char db (some uid) (some bid) (some q) db1 r1 h
    obtain ⟨book, hfb, hfu, hs, hrcd, hdb'⟩ := borrowBody_ok_char db uid bid q db1 r1 hbody
    subst hdb'
    unfold conserved stockOf outstandingOf
    have hstock := sum_stock_set_general db.books bid (book.stock - q) bid' book hfb hbu
    cases hcb : findCurrentBorrow db uid bid with
    | some ex =>
      simp only [hcb]
      have hout := sum_out_set_general db.currentBorrows uid bid (ex.quantity + q) bid' ex
        hcb hcu
      rw [hstock, hout]
      by_cases hbb : bid' = bid <;> simp [hbb] <;> ring
    | none =>
      simp only [hcb]
      rw [hstock]
      rw [List.filter_append]
      by_cases hbb : bid' = bid
      · subst hbb
        simp only [List.filter_cons, List.filter_nil]
        simp
        ring
      · have : (bid == bid') = false := by simp; omega
        simp only [List.filter_cons, List.filter_nil]
        simp [this, hbb]
  · intro h
    obtain ⟨hq1, hbody⟩ := return_ok_char db (some uid) (some bid) (some q) db2 r2 h
    obtain ⟨book, cbr, hfb, hfu, hcb, hover, hrcd, hdb'⟩ :=
      returnBody_ok_char db uid bid q db2 r2 hbody
    subst hdb'
    unfold conserved stockOf outstandingOf
    have hstock := sum_stock_set_general db.books bid (book.stock + q) bid' book hfb hbu
    by_cases heq : (cbr.quantity == q) = true
    · simp only [heq, if_true]
      have hout := sum_out_remove_general db.currentBorrows uid bid bid' cbr hcb hcu
      rw [hstock, hout]
      have hqe : cbr.quantity = q := by simpa using heq
      by_cases hbb : bid' = bid <;> simp [hbb, hqe]
    · simp only [heq, Bool.false_eq_true, if_false]
      have hout := sum_out_set_general db.currentBorrows uid bid (cbr.quantity - q) bid' cbr
        hcb hcu
      rw [hstock, hout]
      by_cases hbb : bid' = bid <;> simp [hbb] <;> ring

theorem conservation_invariant_witness :
    conserved dbLoan 1 = conserved dbOne 1 :=
  (conservation_invariant dbOne 1 1 3 dbLoan dbLoan ⟨1, 1, "borrow", 3⟩ ⟨1, 1, "borrow", 3⟩ 1
    (by decide) (by decide)).1 (by rfl)

end BookMS
